import Mathlib

set_option autoImplicit false

/-!
Verification of the reward-computation and training-step loop of
`example_relativistic_ppo.py`.

The script is orchestration code: the external capabilities it calls
(the length sampler, the generation routine of the PPO trainer, the
tokenizer decode, the sentiment pipeline, the PPO step and the logging
sink) live outside the single source file, so they are modelled here as
abstract components gathered in an `Env` structure, constrained only by
the properties the specification ascribes to them.  The loop body itself
(`get_rewards`, the per-batch iteration, the collator) is translated
directly from the source.
-/

namespace RelativisticPPO

/-- Token ids (elements of the query / response tensors). -/
abbrev Token := Nat

/-- Errors raised by external capabilities (Python exceptions). -/
abbrev Err := String

/-- Classifier scores (floating point in the source, modelled as rationals;
no arithmetic is performed on them by the loop). -/
abbrev Score := ℚ

/-- One `{label, score}` entry of a sentiment-pipeline output list. -/
structure LabelScore where
  label : String
  score : Score
  deriving DecidableEq, Repr

/-- The opaque statistics mapping returned by `ppo_trainer.step`. -/
abbrev Stats := List (String × Score)

/-- A batch as produced by the dataloader/collator and mutated by the loop:
`input_ids` and `query` come from the dataset, `response` is absent until
`get_rewards` assigns `batch["response"]`. -/
structure Batch where
  input_ids : List (List Token)
  query : List String
  response : Option (List String)
  deriving DecidableEq, Repr

/-- The argument tuple of one `ppo_trainer.step` invocation, in positional
order (line 123 of the source). -/
structure StepCall where
  queries : List (List Token)
  responses : List (List Token)
  responses_ref : List (List Token)
  rewards : List Score
  rewards_ref : List Score
  deriving DecidableEq, Repr

/-- The argument tuple of one `ppo_trainer.log_stats` invocation
(line 124 of the source). -/
structure LogCall where
  stats : Stats
  batch : Batch
  rewards : List Score
  deriving DecidableEq, Repr

/-- Source constant `output_min_length = 4` (line 85). -/
def output_min_length : Nat := 4

/-- Source constant `output_max_length = 16` (line 86). -/
def output_max_length : Nat := 16

/-- Modelled from the spec: the value set of `LengthSampler(minV, maxV)`
(`trl.core.LengthSampler`, not under `src/`), "a component drawing a random
integer from a fixed range": the integers `minV, minV+1, ..., maxV-1`. -/
def lengthSamplerValues (minV maxV : Nat) : List Nat :=
  List.range' minV (maxV - minV)

/-- Python slice `l[-n:]` (used at line 109 as `response.squeeze()[-gen_len:]`):
for `n > 0` the last `min n l.length` elements; `l[-0:]` is all of `l`. -/
def pythonTail {α : Type} (l : List α) (n : Nat) : List α :=
  if n = 0 then l else l.drop (l.length - n)

/-- Modelled from the spec: the external capabilities consumed by the loop.
`sampler n` is the value of the `n`-th call to `output_length_sampler()`
within an iteration; `gen q m` is `ppo_trainer.generate(q, max_new_tokens=m)`
returning the full prompt-plus-response sequence; `decode` is
`tokenizer.decode`; `classify` is the per-input behaviour of
`sentiment_pipe` ("returns, per input, a ranked list of {label, score}
pairs"); `stepFn` is `ppo_trainer.step`.  The two property fields record
what the spec guarantees: sampled lengths lie in the sampler's value range,
and generation yields "a response token sequence of exactly that length"
appended to the prompt. -/
structure Env where
  sampler : Nat → Nat
  gen : List Token → Nat → Except Err (List Token)
  decode : List Token → String
  classify : String → Except Err (List LabelScore)
  stepFn : StepCall → Except Err Stats
  sampler_mem : ∀ n, sampler n ∈ lengthSamplerValues output_min_length output_max_length
  gen_length : ∀ q n r, gen q n = Except.ok r → r.length = q.length + n

/-- The generation loop of `get_rewards` (lines 104-109): for each query,
draw a fresh length, generate with `max_new_tokens` set to it, and append
the last `gen_len` tokens of the output.  `k` is the number of sampler
draws already consumed. -/
def genResponses (env : Env) : Nat → List (List Token) → Except Err (List (List Token))
  | _, [] => Except.ok []
  | k, q :: qs => do
    let gen_len := env.sampler k
    let response ← env.gen q gen_len
    let rest ← genResponses env (k + 1) qs
    Except.ok (pythonTail response gen_len :: rest)

/-- The single `sentiment_pipe(texts, **sent_kwargs)` call of line 114,
modelled per input (the spec: the pipeline "returns, per input, a ranked
list of {label, score} pairs"). -/
def classifyAll (env : Env) : List String → Except Err (List (List LabelScore))
  | [] => Except.ok []
  | t :: ts => do
    let o ← env.classify t
    let os ← classifyAll env ts
    Except.ok (o :: os)

/-- Reward extraction of line 115: `output[1]["score"]` for each pipeline
output, raising `IndexError` when the output list has fewer than two
entries. -/
def extractRewards : List (List LabelScore) → Except Err (List Score)
  | [] => Except.ok []
  | output :: rest =>
    match output[1]? with
    | some ls => do
      let rs ← extractRewards rest
      Except.ok (ls.score :: rs)
    | none => Except.error "IndexError"

/-- The closure `get_rewards(ref_model=False)` of lines 102-116.  `k` is the
number of length-sampler draws consumed before this call; `query_tensors`
is the captured `batch["input_ids"]`.  Returns the response tensors, the
rewards, and the batch after the in-place `batch["response"]` assignment
of line 110. -/
def get_rewards (env : Env) (k : Nat) (query_tensors : List (List Token))
    (batch : Batch) (ref_model : Bool) :
    Except Err (List (List Token) × List Score × Batch) := do
  let response_tensors ← genResponses env k query_tensors
  let responses := response_tensors.map env.decode
  let batch' : Batch := { batch with response := some responses }
  let texts := List.zipWith (fun q r => q ++ r) batch'.query responses
  let pipe_outputs ← classifyAll env texts
  let rewards ← extractRewards pipe_outputs
  Except.ok (response_tensors, rewards, batch')

/-- Observable calls to the trainer's update and logging capabilities. -/
inductive Event where
  | stepEv (call : StepCall)
  | logEv (call : LogCall)
  deriving DecidableEq, Repr

/-- One iteration of the training loop (lines 99-124): two `get_rewards`
passes (the second labelled `ref_model=True` and continuing the sampler
stream), one `ppo_trainer.step`, one `ppo_trainer.log_stats`.  Returns the
trace of step/log events together with the final batch, or the first
uncaught error. -/
def runIterationT (env : Env) (batch₀ : Batch) : List Event × Except Err Batch :=
  let query_tensors := batch₀.input_ids
  match get_rewards env 0 query_tensors batch₀ false with
  | Except.error e => ([], Except.error e)
  | Except.ok (response_tensors, rewards, batch₁) =>
    match get_rewards env query_tensors.length query_tensors batch₁ true with
    | Except.error e => ([], Except.error e)
    | Except.ok (response_tensors_ref, rewards_ref, batch₂) =>
      let call : StepCall :=
        ⟨query_tensors, response_tensors, response_tensors_ref, rewards, rewards_ref⟩
      match env.stepFn call with
      | Except.error e => ([Event.stepEv call], Except.error e)
      | Except.ok stats =>
        ([Event.stepEv call, Event.logEv ⟨stats, batch₂, rewards⟩], Except.ok batch₂)

/-- The training loop over the batches yielded by the dataloader: strictly
sequential, no exception handling, stopping at the first error.  Returns
the per-batch event traces of the batches that were processed. -/
def runLoop (env : Env) : List Batch → List (List Event) × Except Err Unit
  | [] => ([], Except.ok ())
  | b :: bs =>
    match runIterationT env b with
    | (evs, Except.error e) => ([evs], Except.error e)
    | (evs, Except.ok _) =>
      let (rest, res) := runLoop env bs
      (evs :: rest, res)

/-- Python `d[k]` on a dict modelled as an association list (first binding
of the key, `none` for a `KeyError`). -/
def dictGet {K V : Type} [DecidableEq K] (d : List (K × V)) (k : K) : Option V :=
  (d.find? (fun kv => kv.1 = k)).map (fun kv => kv.2)

/-- `[d[key] for d in data]` with `KeyError` propagation. -/
def getAll {K V : Type} [DecidableEq K] (k : K) : List (List (K × V)) → Option (List V)
  | [] => some []
  | d :: ds => do
    let v ← dictGet d k
    let vs ← getAll k ds
    some (v :: vs)

/-- Inner build of the collator for a given key list. -/
def collatorAux {K V : Type} [DecidableEq K] (data : List (List (K × V))) :
    List K → Option (List (K × List V))
  | [] => some []
  | k :: ks => do
    let vs ← getAll k data
    let rest ← collatorAux data ks
    some ((k, vs) :: rest)

/-- The collator of lines 62-63:
`dict((key, [d[key] for d in data]) for key in data[0])`, with `none` for
the `IndexError` on empty input or a `KeyError` on a record missing a key
of the first record. -/
def collator {K V : Type} [DecidableEq K] (data : List (List (K × V))) :
    Option (List (K × List V)) :=
  match data with
  | [] => none
  | d₀ :: _ => collatorAux data (d₀.map Prod.fst)

/-- Values stored in dataset records: token-id sequences or text. -/
inductive Val where
  | ids (ts : List Token)
  | txt (s : String)
  deriving DecidableEq, Repr

/-- Extract a list of token-id sequences from a collated column. -/
def asIds : List Val → Option (List (List Token))
  | [] => some []
  | Val.ids q :: vs => (asIds vs).map (fun r => q :: r)
  | Val.txt _ :: _ => none

/-- Extract a list of strings from a collated column. -/
def asTxts : List Val → Option (List String)
  | [] => some []
  | Val.txt s :: vs => (asTxts vs).map (fun r => s :: r)
  | Val.ids _ :: _ => none

/-- Read the fields the loop consumes (`batch["input_ids"]`,
`batch["query"]`) out of a collated batch dict. -/
def batchOfDict (d : List (String × List Val)) : Option Batch := do
  let idsCol ← dictGet d "input_ids"
  let ids ← asIds idsCol
  let qCol ← dictGet d "query"
  let qs ← asTxts qCol
  some ⟨ids, qs, none⟩

/-- The selection the spec describes for the reward (but the code does not
perform): the score of the entry whose label is the positive-sentiment
label, found by label match. -/
def posLabelScore (positive : String) (output : List LabelScore) : Option Score :=
  (output.find? (fun ls => ls.label = positive)).map (fun ls => ls.score)

/-- Whether an event is a `ppo_trainer.step` invocation. -/
def isStepEvent : Event → Bool
  | Event.stepEv _ => true
  | Event.logEv _ => false

/-- A concrete environment used to exercise the loop: constant sampled
length 5, generation that appends `n` padding tokens, a classifier that
ranks the positive label first (as a score-ranked pipeline output does
when the positive class wins). -/
def envEx : Env where
  sampler := fun _ => 5
  gen := fun q n => Except.ok (q ++ List.replicate n 0)
  decode := fun _ => "x"
  classify := fun _ => Except.ok [⟨"POSITIVE", 9⟩, ⟨"NEGATIVE", 1⟩]
  stepFn := fun _ => Except.ok []
  sampler_mem := fun _ => by
    show (5 : Nat) ∈ lengthSamplerValues output_min_length output_max_length
    decide
  gen_length := by
    intro q n r h
    injection h with h
    subst h
    simp

/-- `envEx` with an update step that raises. -/
def envFail : Env :=
  { envEx with stepFn := fun _ => Except.error "boom" }

/-- A concrete one-item batch. -/
def batchEx : Batch := ⟨[[1, 2]], ["q"], none⟩

/-! ### Helper lemmas -/

@[simp]
theorem okBind {α β : Type} (a : α) (f : α → Except Err β) :
    (Except.ok a >>= f : Except Err β) = f a := rfl

@[simp]
theorem errBind {α β : Type} (e : Err) (f : α → Except Err β) :
    (Except.error e >>= f : Except Err β) = Except.error e := rfl

theorem pythonTail_length {α : Type} (l : List α) (n : Nat) (hle : n ≤ l.length)
    (hpos : 0 < n) : (pythonTail l n).length = n := by
  unfold pythonTail
  rw [if_neg (Nat.pos_iff_ne_zero.mp hpos)]
  simp only [List.length_drop]
  omega

theorem Env.sampler_bounds (env : Env) (n : Nat) :
    output_min_length ≤ env.sampler n ∧ env.sampler n < output_max_length := by
  have h := env.sampler_mem n
  unfold lengthSamplerValues at h
  rcases List.mem_range'.mp h with ⟨i, hi, hm⟩
  unfold output_min_length output_max_length at *
  omega

theorem genResponses_ok (env : Env) :
    ∀ (k : Nat) (qs rs : List (List Token)), genResponses env k qs = Except.ok rs →
      rs.length = qs.length ∧
      ∀ i, i < qs.length →
        ∃ g r, qs[i]? = some g ∧ env.gen g (env.sampler (k + i)) = Except.ok r ∧
          rs[i]? = some (pythonTail r (env.sampler (k + i)))
  | k, [], rs, h => by
    simp only [genResponses] at h
    injection h with h
    subst h
    exact ⟨rfl, fun i hi => absurd hi (by simp)⟩
  | k, q :: qs, rs, h => by
    simp only [genResponses] at h
    cases hg : env.gen q (env.sampler k) with
    | error e => rw [hg] at h; simp at h
    | ok r =>
      rw [hg] at h
      cases hr : genResponses env (k + 1) qs with
      | error e => rw [hr] at h; simp at h
      | ok rest =>
        rw [hr] at h
        simp only [okBind] at h
        injection h with h
        subst h
        obtain ⟨ihlen, ihget⟩ := genResponses_ok env (k + 1) qs rest hr
        refine ⟨by simp [ihlen], fun i hi => ?_⟩
        cases i with
        | zero =>
          exact ⟨q, r, by simp, by simpa using hg, by simp⟩
        | succ j =>
          have hj : j < qs.length := by simpa using hi
          obtain ⟨g, r', hq, hgen, hrs⟩ := ihget j hj
          have hk : k + (j + 1) = (k + 1) + j := by omega
          exact ⟨g, r', by simpa using hq, by rw [hk]; exact hgen, by rw [hk]; simpa using hrs⟩

theorem classifyAll_ok (env : Env) :
    ∀ (ts : List String) (os : List (List LabelScore)), classifyAll env ts = Except.ok os →
      os.length = ts.length ∧
      ∀ i, i < ts.length →
        ∃ t o, ts[i]? = some t ∧ env.classify t = Except.ok o ∧ os[i]? = some o
  | [], os, h => by
    simp only [classifyAll] at h
    injection h with h
    subst h
    exact ⟨rfl, fun i hi => absurd hi (by simp)⟩
  | t :: ts, os, h => by
    simp only [classifyAll] at h
    cases hc : env.classify t with
    | error e => rw [hc] at h; simp at h
    | ok o =>
      rw [hc] at h
      cases hrest : classifyAll env ts with
      | error e => rw [hrest] at h; simp at h
      | ok os' =>
        rw [hrest] at h
        simp only [okBind] at h
        injection h with h
        subst h
        obtain ⟨ihlen, ihget⟩ := classifyAll_ok env ts os' hrest
        refine ⟨by simp [ihlen], fun i hi => ?_⟩
        cases i with
        | zero => exact ⟨t, o, by simp, hc, by simp⟩
        | succ j =>
          have hj : j < ts.length := by simpa using hi
          obtain ⟨t', o', ht, hcl, ho⟩ := ihget j hj
          exact ⟨t', o', by simpa using ht, hcl, by simpa using ho⟩

theorem extractRewards_ok :
    ∀ (outs : List (List LabelScore)) (rs : List Score), extractRewards outs = Except.ok rs →
      rs.length = outs.length ∧
      ∀ i, i < outs.length →
        ∃ o ls, outs[i]? = some o ∧ o[1]? = some ls ∧ rs[i]? = some ls.score
  | [], rs, h => by
    simp only [extractRewards] at h
    injection h with h
    subst h
    exact ⟨rfl, fun i hi => absurd hi (by simp)⟩
  | output :: rest, rs, h => by
    simp only [extractRewards] at h
    cases ho : output[1]? with
    | none => rw [ho] at h; simp at h
    | some ls =>
      rw [ho] at h
      cases hrest : extractRewards rest with
      | error e => rw [hrest] at h; simp at h
      | ok rs' =>
        rw [hrest] at h
        simp only [okBind] at h
        injection h with h
        subst h
        obtain ⟨ihlen, ihget⟩ := extractRewards_ok rest rs' hrest
        refine ⟨by simp [ihlen], fun i hi => ?_⟩
        cases i with
        | zero => exact ⟨output, ls, by simp, ho, by simp⟩
        | succ j =>
          have hj : j < rest.length := by simpa using hi
          obtain ⟨o', ls', hout, hls, hr⟩ := ihget j hj
          exact ⟨o', ls', by simpa using hout, hls, by simpa using hr⟩

theorem get_rewards_ok_spec (env : Env) (k : Nat) (qt : List (List Token)) (b : Batch)
    (rf : Bool) (rt : List (List Token)) (rw : List Score) (b' : Batch)
    (h : get_rewards env k qt b rf = Except.ok (rt, rw, b')) :
    genResponses env k qt = Except.ok rt ∧
    b' = { b with response := some (rt.map env.decode) } ∧
    ∃ outs,
      classifyAll env (List.zipWith (fun q r => q ++ r) b.query (rt.map env.decode)) =
        Except.ok outs ∧
      extractRewards outs = Except.ok rw := by
  unfold get_rewards at h
  cases hg : genResponses env k qt with
  | error e => rw [hg] at h; simp at h
  | ok rts =>
    rw [hg] at h
    simp only [okBind] at h
    cases hc : classifyAll env (List.zipWith (fun q r => q ++ r) b.query (rts.map env.decode)) with
    | error e => rw [hc] at h; simp at h
    | ok outs =>
      rw [hc] at h
      simp only [okBind] at h
      cases he : extractRewards outs with
      | error e => rw [he] at h; simp at h
      | ok rws =>
        rw [he] at h
        simp only [okBind, Except.ok.injEq, Prod.mk.injEq] at h
        obtain ⟨h1, h2, h3⟩ := h
        subst h1 h2 h3
        exact ⟨rfl, rfl, outs, hc, he⟩

theorem genResponses_total (env : Env) (hgen : ∀ q n, ∃ r, env.gen q n = Except.ok r) :
    ∀ (k : Nat) (qs : List (List Token)), ∃ rs, genResponses env k qs = Except.ok rs
  | _, [] => ⟨[], rfl⟩
  | k, q :: qs => by
    obtain ⟨r, hr⟩ := hgen q (env.sampler k)
    obtain ⟨rest, hrest⟩ := genResponses_total env hgen (k + 1) qs
    exact ⟨pythonTail r (env.sampler k) :: rest, by simp only [genResponses, hr, hrest, okBind]⟩

theorem classifyAll_total (env : Env)
    (hcls : ∀ t, ∃ o, env.classify t = Except.ok o ∧ 1 < o.length) :
    ∀ (ts : List String), ∃ os, classifyAll env ts = Except.ok os ∧ ∀ o ∈ os, 1 < o.length
  | [] => ⟨[], rfl, by simp⟩
  | t :: ts => by
    obtain ⟨o, ho, hlen⟩ := hcls t
    obtain ⟨os, hos, hall⟩ := classifyAll_total env hcls ts
    refine ⟨o :: os, by simp only [classifyAll, ho, hos, okBind], ?_⟩
    intro o' ho'
    rcases List.mem_cons.mp ho' with h | h
    · exact h ▸ hlen
    · exact hall o' h

theorem extractRewards_total :
    ∀ (outs : List (List LabelScore)), (∀ o ∈ outs, 1 < o.length) →
      ∃ rs, extractRewards outs = Except.ok rs
  | [], _ => ⟨[], rfl⟩
  | output :: rest, hall => by
    have hlen : 1 < output.length := hall output (by simp)
    obtain ⟨rs, hrs⟩ := extractRewards_total rest (fun o ho => hall o (by simp [ho]))
    have h1 : output[1]? = some output[1] := List.getElem?_eq_getElem hlen
    exact ⟨output[1].score :: rs, by simp only [extractRewards, h1, hrs, okBind]⟩

theorem get_rewards_total (env : Env) (hgen : ∀ q n, ∃ r, env.gen q n = Except.ok r)
    (hcls : ∀ t, ∃ o, env.classify t = Except.ok o ∧ 1 < o.length)
    (k : Nat) (qt : List (List Token)) (b : Batch) (rf : Bool) :
    ∃ rt rw, get_rewards env k qt b rf =
      Except.ok (rt, rw, { b with response := some (rt.map env.decode) }) := by
  obtain ⟨rt, hrt⟩ := genResponses_total env hgen k qt
  obtain ⟨outs, houts, hall⟩ :=
    classifyAll_total env hcls (List.zipWith (fun q r => q ++ r) b.query (rt.map env.decode))
  obtain ⟨rw, hrw⟩ := extractRewards_total outs hall
  exact ⟨rt, rw, by simp only [get_rewards, hrt, okBind, houts, hrw]⟩

theorem runIterationT_ok (env : Env) (b : Batch) (rt : List (List Token)) (rw : List Score)
    (b₁ : Batch) (rtr : List (List Token)) (rwr : List Score) (b₂ : Batch) (stats : Stats)
    (h1 : get_rewards env 0 b.input_ids b false = Except.ok (rt, rw, b₁))
    (h2 : get_rewards env b.input_ids.length b.input_ids b₁ true = Except.ok (rtr, rwr, b₂))
    (h3 : env.stepFn ⟨b.input_ids, rt, rtr, rw, rwr⟩ = Except.ok stats) :
    runIterationT env b =
      ([Event.stepEv ⟨b.input_ids, rt, rtr, rw, rwr⟩, Event.logEv ⟨stats, b₂, rw⟩],
        Except.ok b₂) := by
  simp only [runIterationT, h1, h2, h3]

theorem runIterationT_total (env : Env) (hgen : ∀ q n, ∃ r, env.gen q n = Except.ok r)
    (hcls : ∀ t, ∃ o, env.classify t = Except.ok o ∧ 1 < o.length)
    (hstep : ∀ c, ∃ s, env.stepFn c = Except.ok s) (b : Batch) :
    ∃ c l b₂, runIterationT env b = ([Event.stepEv c, Event.logEv l], Except.ok b₂) := by
  obtain ⟨rt, rw, h1⟩ := get_rewards_total env hgen hcls 0 b.input_ids b false
  obtain ⟨rtr, rwr, h2⟩ := get_rewards_total env hgen hcls b.input_ids.length b.input_ids
    { b with response := some (rt.map env.decode) } true
  obtain ⟨stats, h3⟩ := hstep ⟨b.input_ids, rt, rtr, rw, rwr⟩
  exact ⟨_, _, _, runIterationT_ok env b rt rw _ rtr rwr _ stats h1 h2 h3⟩

theorem getAll_spec {K V : Type} [DecidableEq K] (k : K) :
    ∀ (data : List (List (K × V))), (∀ d ∈ data, (dictGet d k).isSome) →
      ∃ vs, getAll k data = some vs ∧ vs.length = data.length ∧
        ∀ j, j < data.length →
          ∃ dj v, data[j]? = some dj ∧ dictGet dj k = some v ∧ vs[j]? = some v
  | [], _ => ⟨[], rfl, rfl, fun j hj => absurd hj (by simp)⟩
  | d :: ds, h => by
    obtain ⟨v, hv⟩ := Option.isSome_iff_exists.mp (h d (by simp))
    obtain ⟨vs, hvs, hlen, hget⟩ := getAll_spec k ds (fun d' hd' => h d' (by simp [hd']))
    refine ⟨v :: vs, by simp only [getAll, hv, hvs, Option.bind_eq_bind, Option.some_bind], by simp [hlen], fun j hj => ?_⟩
    cases j with
    | zero => exact ⟨d, v, by simp, hv, by simp⟩
    | succ j' =>
      have hj' : j' < ds.length := by simpa using hj
      obtain ⟨dj, v', hd, hdv, hvs'⟩ := hget j' hj'
      exact ⟨dj, v', by simpa using hd, hdv, by simpa using hvs'⟩

theorem collatorAux_spec {K V : Type} [DecidableEq K] (data : List (List (K × V))) :
    ∀ (ks : List K), (∀ k ∈ ks, ∀ d ∈ data, (dictGet d k).isSome) →
      ∃ out, collatorAux data ks = some out ∧ out.length = ks.length ∧
        ∀ i, i < ks.length →
          ∃ k vs, ks[i]? = some k ∧ out[i]? = some (k, vs) ∧ getAll k data = some vs
  | [], _ => ⟨[], rfl, rfl, fun i hi => absurd hi (by simp)⟩
  | k :: ks, h => by
    obtain ⟨vs, hvs, _, _⟩ := getAll_spec k data (h k (by simp))
    obtain ⟨out, hout, hlen, hget⟩ :=
      collatorAux_spec data ks (fun k' hk' => h k' (by simp [hk']))
    refine ⟨(k, vs) :: out,
      by simp only [collatorAux, hvs, hout, Option.bind_eq_bind, Option.some_bind],
      by simp [hlen], fun i hi => ?_⟩
    cases i with
    | zero => exact ⟨k, vs, by simp, by simp, hvs⟩
    | succ i' =>
      have hi' : i' < ks.length := by simpa using hi
      obtain ⟨k', vs', hk, ho, hg⟩ := hget i' hi'
      exact ⟨k', vs', by simpa using hk, by simpa using ho, hg⟩

theorem runLoop_cons_error (env : Env) (b : Batch) (bs : List Batch) (evs : List Event)
    (e : Err) (h : runIterationT env b = (evs, Except.error e)) :
    runLoop env (b :: bs) = ([evs], Except.error e) := by
  simp only [runLoop, h]

theorem runLoop_cons_ok (env : Env) (b : Batch) (bs : List Batch) (evs : List Event)
    (b' : Batch) (h : runIterationT env b = (evs, Except.ok b')) :
    runLoop env (b :: bs) = ((runLoop env bs).1.cons evs, (runLoop env bs).2) := by
  simp only [runLoop, h]

theorem get_rewards_reward_at (env : Env) (k : Nat) (qt : List (List Token)) (b : Batch)
    (rf : Bool) (rt : List (List Token)) (rw : List Score) (b' : Batch)
    (h : get_rewards env k qt b rf = Except.ok (rt, rw, b'))
    (i : Nat) (hi : i < rw.length) :
    ∃ t out ls,
      (List.zipWith (fun q r => q ++ r) b.query (rt.map env.decode))[i]? = some t ∧
      env.classify t = Except.ok out ∧ out[1]? = some ls ∧ rw[i]? = some ls.score := by
  obtain ⟨-, -, outs, hc, he⟩ := get_rewards_ok_spec env k qt b rf rt rw b' h
  obtain ⟨clen, cget⟩ := classifyAll_ok env _ outs hc
  obtain ⟨elen, eget⟩ := extractRewards_ok outs rw he
  have hi2 : i < outs.length := by omega
  have hi3 : i < (List.zipWith (fun q r => q ++ r) b.query (rt.map env.decode)).length := by
    omega
  obtain ⟨t, o, ht, hcl, ho⟩ := cget i hi3
  obtain ⟨o', ls, hout, hls, hr⟩ := eget i hi2
  have hoo : o = o' := by
    rw [ho] at hout
    injection hout
  exact ⟨t, o, ls, ht, hcl, hoo ▸ hls, hr⟩

/-! ### Claims -/

/-- C1: for every query in a batch, the loop draws a fresh target length `L`
from the length sampler with `4 ≤ L < 16`, invokes generation with
`max_new_tokens` set to `L`, and the response tensor appended for that
query has length exactly `L` tokens. -/
theorem claim_C1_sampled_length (env : Env) (k : Nat) (qt : List (List Token)) (b : Batch)
    (rf : Bool) (rt : List (List Token)) (rw : List Score) (b' : Batch)
    (h : get_rewards env k qt b rf = Except.ok (rt, rw, b'))
    (i : Nat) (hi : i < qt.length) :
    ∃ r, rt[i]? = some r ∧ r.length = env.sampler (k + i) ∧
      output_min_length ≤ env.sampler (k + i) ∧ env.sampler (k + i) < output_max_length := by
  obtain ⟨hg, -, -⟩ := get_rewards_ok_spec env k qt b rf rt rw b' h
  obtain ⟨-, hget⟩ := genResponses_ok env k qt rt hg
  obtain ⟨g, r0, hq, hgen, hrt⟩ := hget i hi
  obtain ⟨hlo, hhi⟩ := env.sampler_bounds (k + i)
  have hlen : r0.length = g.length + env.sampler (k + i) := env.gen_length g _ r0 hgen
  refine ⟨pythonTail r0 (env.sampler (k + i)), hrt, pythonTail_length r0 _ ?_ ?_, hlo, hhi⟩
  · omega
  · unfold output_min_length at hlo
    omega

/-- C1 witness: the theorem applied to the concrete environment `envEx`
(constant sampled length 5) and a one-query batch. -/
theorem claim_C1_sampled_length_wit :
    ∃ r, ([[0, 0, 0, 0, 0]] : List (List Token))[0]? = some r ∧
      r.length = envEx.sampler (0 + 0) ∧
      output_min_length ≤ envEx.sampler (0 + 0) ∧ envEx.sampler (0 + 0) < output_max_length :=
  claim_C1_sampled_length envEx 0 [[1, 2]] batchEx false [[0, 0, 0, 0, 0]] [(1 : ℚ)]
    ⟨[[1, 2]], ["q"], some ["x"]⟩ rfl 0 (by decide)

/-- C2 counterexample: the reward is NOT selected by matching the
positive-sentiment label.  With a classifier output that ranks the
positive label first, the code's reward (`output[1]["score"]`, line 115)
is the score of the OTHER entry: here the reward is 1 while the score the
label match selects for `POSITIVE` is 9. -/
theorem claim_C2_counterexample :
    get_rewards envEx 0 [[1, 2]] batchEx false =
      Except.ok ([[0, 0, 0, 0, 0]], [(1 : ℚ)], ⟨[[1, 2]], ["q"], some ["x"]⟩) ∧
    envEx.classify "qx" = Except.ok [⟨"POSITIVE", 9⟩, ⟨"NEGATIVE", 1⟩] ∧
    posLabelScore "POSITIVE" [⟨"POSITIVE", 9⟩, ⟨"NEGATIVE", 1⟩] = some 9 ∧
    (1 : ℚ) ≠ 9 :=
  ⟨rfl, rfl, rfl, by norm_num⟩

/-- C2 (amended): for every scored (query, response) pair, the reward is
the score field of the element at index 1 of the classifier's returned
list for that concatenated text — a positional selection, regardless of
the labels in the list. -/
theorem claim_C2_index_one_score (env : Env) (k : Nat) (qt : List (List Token)) (b : Batch)
    (rf : Bool) (rt : List (List Token)) (rw : List Score) (b' : Batch)
    (h : get_rewards env k qt b rf = Except.ok (rt, rw, b'))
    (i : Nat) (hi : i < rw.length) :
    ∃ t out ls,
      (List.zipWith (fun q r => q ++ r) b.query (rt.map env.decode))[i]? = some t ∧
      env.classify t = Except.ok out ∧ out[1]? = some ls ∧ rw[i]? = some ls.score :=
  get_rewards_reward_at env k qt b rf rt rw b' h i hi

/-- C2 witness: the amended theorem applied to `envEx` and a one-query
batch. -/
theorem claim_C2_index_one_score_wit :
    ∃ t out ls,
      (List.zipWith (fun q r => q ++ r) batchEx.query
        (([[0, 0, 0, 0, 0]] : List (List Token)).map envEx.decode))[0]? = some t ∧
      envEx.classify t = Except.ok out ∧ out[1]? = some ls ∧
      ([(1 : ℚ)] : List Score)[0]? = some ls.score :=
  claim_C2_index_one_score envEx 0 [[1, 2]] batchEx false [[0, 0, 0, 0, 0]] [(1 : ℚ)]
    ⟨[[1, 2]], ["q"], some ["x"]⟩ rfl 0 (by decide)

/-- C3: `get_rewards` does not branch on its `ref_model` argument — for the
same environment (hence the same random draws), the same sampler offset and
the same batch state, the call with `ref_model = true` is the same function
as the call with `ref_model = false`. -/
theorem claim_C3_ref_model_no_branch (env : Env) (k : Nat) (qt : List (List Token))
    (b : Batch) :
    get_rewards env k qt b true = get_rewards env k qt b false := rfl

/-- C4: positional alignment — `rewards[i]` is computed from the
concatenation of the i-th query text and the i-th (decoded) response only,
with no dependence on any other batch item. -/
theorem claim_C4_alignment (env : Env) (k : Nat) (qt : List (List Token)) (b : Batch)
    (rf : Bool) (rt : List (List Token)) (rw : List Score) (b' : Batch)
    (h : get_rewards env k qt b rf = Except.ok (rt, rw, b'))
    (i : Nat) (hi : i < rw.length) :
    ∃ q r out ls, b.query[i]? = some q ∧ rt[i]? = some r ∧
      env.classify (q ++ env.decode r) = Except.ok out ∧
      out[1]? = some ls ∧ rw[i]? = some ls.score := by
  obtain ⟨t, out, ls, ht, hcl, hls, hr⟩ :=
    get_rewards_reward_at env k qt b rf rt rw b' h i hi
  obtain ⟨q, y, hq, hy, hqy⟩ := List.getElem?_zipWith_eq_some.mp ht
  rw [List.getElem?_map] at hy
  obtain ⟨r, hrr, hyr⟩ := Option.map_eq_some'.mp hy
  refine ⟨q, r, out, ls, hq, hrr, ?_, hls, hr⟩
  rw [hyr, hqy]
  exact hcl

/-- C4 witness: the theorem applied to `envEx` and a one-query batch. -/
theorem claim_C4_alignment_wit :
    ∃ q r out ls, batchEx.query[0]? = some q ∧
      ([[0, 0, 0, 0, 0]] : List (List Token))[0]? = some r ∧
      envEx.classify (q ++ envEx.decode r) = Except.ok out ∧
      out[1]? = some ls ∧ ([(1 : ℚ)] : List Score)[0]? = some ls.score :=
  claim_C4_alignment envEx 0 [[1, 2]] batchEx false [[0, 0, 0, 0, 0]] [(1 : ℚ)]
    ⟨[[1, 2]], ["q"], some ["x"]⟩ rfl 0 (by decide)

/-- C5: `len(response_tensors) == len(query_tensors) == len(rewards)` for
every batch whose `query` column is aligned with `input_ids` (as the
collator guarantees). -/
theorem claim_C5_lengths (env : Env) (k : Nat) (qt : List (List Token)) (b : Batch)
    (rf : Bool) (rt : List (List Token)) (rw : List Score) (b' : Batch)
    (hq : b.query.length = qt.length)
    (h : get_rewards env k qt b rf = Except.ok (rt, rw, b')) :
    rt.length = qt.length ∧ rw.length = qt.length := by
  obtain ⟨hg, -, outs, hc, he⟩ := get_rewards_ok_spec env k qt b rf rt rw b' h
  have hrt := (genResponses_ok env k qt rt hg).1
  have houts := (classifyAll_ok env _ outs hc).1
  have hrw := (extractRewards_ok outs rw he).1
  refine ⟨hrt, ?_⟩
  rw [hrw, houts, List.length_zipWith, List.length_map, hrt, hq, Nat.min_self]

/-- C5 witness: the theorem applied to `envEx` and a one-query batch. -/
theorem claim_C5_lengths_wit :
    ([[0, 0, 0, 0, 0]] : List (List Token)).length = ([[1, 2]] : List (List Token)).length ∧
    ([(1 : ℚ)] : List Score).length = ([[1, 2]] : List (List Token)).length :=
  claim_C5_lengths envEx 0 [[1, 2]] batchEx false [[0, 0, 0, 0, 0]] [(1 : ℚ)]
    ⟨[[1, 2]], ["q"], some ["x"]⟩ rfl rfl

/-- C6: per iteration, the policy's update capability is invoked exactly
once, with the argument tuple (query tensors, policy responses, reference
responses, policy rewards, reference rewards) in that order, and the
returned statistics mapping is forwarded to the logging sink together with
the batch and the policy rewards. -/
theorem claim_C6_step_once (env : Env) (b : Batch) (rt : List (List Token)) (rw : List Score)
    (b₁ : Batch) (rtr : List (List Token)) (rwr : List Score) (b₂ : Batch) (stats : Stats)
    (h1 : get_rewards env 0 b.input_ids b false = Except.ok (rt, rw, b₁))
    (h2 : get_rewards env b.input_ids.length b.input_ids b₁ true = Except.ok (rtr, rwr, b₂))
    (h3 : env.stepFn ⟨b.input_ids, rt, rtr, rw, rwr⟩ = Except.ok stats) :
    runIterationT env b =
      ([Event.stepEv ⟨b.input_ids, rt, rtr, rw, rwr⟩, Event.logEv ⟨stats, b₂, rw⟩],
        Except.ok b₂) ∧
    (runIterationT env b).1.filter isStepEvent =
      [Event.stepEv ⟨b.input_ids, rt, rtr, rw, rwr⟩] := by
  have he := runIterationT_ok env b rt rw b₁ rtr rwr b₂ stats h1 h2 h3
  refine ⟨he, ?_⟩
  rw [he]
  rfl

/-- C6 witness: the theorem applied to `envEx` and `batchEx`. -/
theorem claim_C6_step_once_wit :
    runIterationT envEx batchEx =
      ([Event.stepEv ⟨batchEx.input_ids, [[0, 0, 0, 0, 0]], [[0, 0, 0, 0, 0]],
          [(1 : ℚ)], [(1 : ℚ)]⟩,
        Event.logEv ⟨[], ⟨[[1, 2]], ["q"], some ["x"]⟩, [(1 : ℚ)]⟩],
        Except.ok ⟨[[1, 2]], ["q"], some ["x"]⟩) ∧
    (runIterationT envEx batchEx).1.filter isStepEvent =
      [Event.stepEv ⟨batchEx.input_ids, [[0, 0, 0, 0, 0]], [[0, 0, 0, 0, 0]],
        [(1 : ℚ)], [(1 : ℚ)]⟩] :=
  claim_C6_step_once envEx batchEx [[0, 0, 0, 0, 0]] [(1 : ℚ)]
    ⟨[[1, 2]], ["q"], some ["x"]⟩ [[0, 0, 0, 0, 0]] [(1 : ℚ)]
    ⟨[[1, 2]], ["q"], some ["x"]⟩ [] rfl rfl rfl

/-- C7: the training loop catches no exceptions — if an iteration fails for
some batch, the error propagates out of the loop unchanged, and only the
preceding (successful) batches plus the failing one were processed: no
later batch is touched and no retry occurs, for ANY suffix of remaining
batches. -/
theorem claim_C7_fail_fast (env : Env) (pre : List Batch) (b : Batch) (post : List Batch)
    (e : Err)
    (hpre : ∀ b' ∈ pre, ∃ evs b'', runIterationT env b' = (evs, Except.ok b''))
    (hb : (runIterationT env b).2 = Except.error e) :
    (runLoop env (pre ++ b :: post)).2 = Except.error e ∧
    (runLoop env (pre ++ b :: post)).1.length = pre.length + 1 := by
  induction pre with
  | nil =>
    rcases hE : runIterationT env b with ⟨evs, res⟩
    rw [hE] at hb
    simp only at hb
    subst hb
    rw [List.nil_append, runLoop_cons_error env b post evs e hE]
    exact ⟨rfl, rfl⟩
  | cons b' pre' ih =>
    obtain ⟨evs, b'', hE⟩ := hpre b' (by simp)
    have ihh := ih (fun x hx => hpre x (by simp [hx]))
    rw [List.cons_append, runLoop_cons_ok env b' (pre' ++ b :: post) evs b'' hE]
    exact ⟨ihh.1, by simp [List.length_cons, ihh.2]⟩

/-- C7 witness: with a failing update step (`envFail`), the loop on
`[batchEx, batchEx]` stops at the first batch with the uncaught error and
never processes the second. -/
theorem claim_C7_fail_fast_wit :
    (runLoop envFail ([] ++ batchEx :: [batchEx])).2 = Except.error "boom" ∧
    (runLoop envFail ([] ++ batchEx :: [batchEx])).1.length = ([] : List Batch).length + 1 :=
  claim_C7_fail_fast envFail [] batchEx [batchEx] "boom"
    (fun b' hb' => absurd hb' (by simp)) rfl

/-- C8: a dataset yielding a single batch with exactly one item still
produces a batch mapping through the collator, and (whenever the external
capabilities succeed) the loop completes one full iteration — generate,
score, update, log — without error. -/
theorem claim_C8_single_item (env : Env) (rv qtext : String) (q : List Token)
    (hgen : ∀ qq n, ∃ r, env.gen qq n = Except.ok r)
    (hcls : ∀ t, ∃ o, env.classify t = Except.ok o ∧ 1 < o.length)
    (hstep : ∀ c, ∃ s, env.stepFn c = Except.ok s) :
    collator [[("review", Val.txt rv), ("input_ids", Val.ids q), ("query", Val.txt qtext)]] =
      some [("review", [Val.txt rv]), ("input_ids", [Val.ids q]),
        ("query", [Val.txt qtext])] ∧
    batchOfDict [("review", [Val.txt rv]), ("input_ids", [Val.ids q]),
        ("query", [Val.txt qtext])] = some ⟨[q], [qtext], none⟩ ∧
    ∃ c l, runLoop env [⟨[q], [qtext], none⟩] =
      ([[Event.stepEv c, Event.logEv l]], Except.ok ()) := by
  refine ⟨rfl, rfl, ?_⟩
  obtain ⟨c, l, b₂, hit⟩ := runIterationT_total env hgen hcls hstep ⟨[q], [qtext], none⟩
  refine ⟨c, l, ?_⟩
  rw [runLoop_cons_ok env _ [] [Event.stepEv c, Event.logEv l] b₂ hit]
  rfl

/-- C8 witness: the theorem applied to `envEx` and a concrete one-item
dataset record. -/
theorem claim_C8_single_item_wit :
    collator [[("review", Val.txt "r"), ("input_ids", Val.ids [1]),
        ("query", Val.txt "qq")]] =
      some [("review", [Val.txt "r"]), ("input_ids", [Val.ids [1]]),
        ("query", [Val.txt "qq"])] ∧
    batchOfDict [("review", [Val.txt "r"]), ("input_ids", [Val.ids [1]]),
        ("query", [Val.txt "qq"])] = some ⟨[[1]], ["qq"], none⟩ ∧
    ∃ c l, runLoop envEx [⟨[[1]], ["qq"], none⟩] =
      ([[Event.stepEv c, Event.logEv l]], Except.ok ()) :=
  claim_C8_single_item envEx "r" "qq" [1]
    (fun qq n => ⟨qq ++ List.replicate n 0, rfl⟩)
    (fun _ => ⟨[⟨"POSITIVE", 9⟩, ⟨"NEGATIVE", 1⟩], rfl, by decide⟩)
    (fun _ => ⟨[], rfl⟩)

/-- C9: for a non-empty record list whose records all have the keys of the
first record, the collator produces, in the key order of the first record,
one column per key; each column has length `len(data)` and its `j`-th
entry is `data[j][k]`. -/
theorem claim_C9_collator_aligned {K V : Type} [DecidableEq K] (d₀ : List (K × V))
    (rest : List (List (K × V)))
    (hshare : ∀ d ∈ d₀ :: rest, ∀ kk ∈ d₀.map Prod.fst, (dictGet d kk).isSome) :
    ∃ out, collator (d₀ :: rest) = some out ∧ out.length = d₀.length ∧
      ∀ i, i < d₀.length →
        ∃ kk vs, (d₀.map Prod.fst)[i]? = some kk ∧ out[i]? = some (kk, vs) ∧
          vs.length = (d₀ :: rest).length ∧
          ∀ j, j < (d₀ :: rest).length →
            ∃ dj v, (d₀ :: rest)[j]? = some dj ∧ dictGet dj kk = some v ∧
              vs[j]? = some v := by
  have hsh : ∀ kk ∈ d₀.map Prod.fst, ∀ d ∈ d₀ :: rest, (dictGet d kk).isSome :=
    fun kk hk d hd => hshare d hd kk hk
  obtain ⟨out, hout, hlen, hget⟩ := collatorAux_spec (d₀ :: rest) (d₀.map Prod.fst) hsh
  refine ⟨out, hout, by simpa using hlen, fun i hi => ?_⟩
  have hi' : i < (d₀.map Prod.fst).length := by simpa using hi
  obtain ⟨kk, vs, hk, ho, hg⟩ := hget i hi'
  have hkk : kk ∈ d₀.map Prod.fst := List.getElem?_mem hk
  obtain ⟨vs2, hvs2, hvlen, hvget⟩ := getAll_spec kk (d₀ :: rest) (hsh kk hkk)
  have hv : vs2 = vs := by
    rw [hg] at hvs2
    injection hvs2 with hv2
    exact hv2.symm
  subst hv
  exact ⟨kk, vs2, hk, ho, hvlen, hvget⟩

/-- C9 witness: the theorem applied to two concrete records sharing key
`"a"`. -/
theorem claim_C9_collator_aligned_wit :
    ∃ out, collator [[(("a" : String), Val.txt "x")], [("a", Val.txt "y")]] = some out ∧
      out.length = [(("a" : String), Val.txt "x")].length ∧
      ∀ i, i < [(("a" : String), Val.txt "x")].length →
        ∃ kk vs, ([(("a" : String), Val.txt "x")].map Prod.fst)[i]? = some kk ∧
          out[i]? = some (kk, vs) ∧
          vs.length = [[(("a" : String), Val.txt "x")], [("a", Val.txt "y")]].length ∧
          ∀ j, j < [[(("a" : String), Val.txt "x")], [("a", Val.txt "y")]].length →
            ∃ dj v, [[(("a" : String), Val.txt "x")], [("a", Val.txt "y")]][j]? = some dj ∧
              dictGet dj kk = some v ∧ vs[j]? = some v :=
  claim_C9_collator_aligned [("a", Val.txt "x")] [[("a", Val.txt "y")]] (by decide)

/-- C10: the second `get_rewards` call overwrites `batch["response"]` in
place, so after both calls the batch holds the decoded responses of the
second (reference-labelled) pass; the logging sink receives that batch
paired with the FIRST pass's rewards, while `batch["query"]` and the query
tensors are unchanged by both calls. -/
theorem claim_C10_response_overwrite (env : Env) (b : Batch) (rt : List (List Token))
    (rw : List Score) (b₁ : Batch) (rtr : List (List Token)) (rwr : List Score) (b₂ : Batch)
    (stats : Stats)
    (h1 : get_rewards env 0 b.input_ids b false = Except.ok (rt, rw, b₁))
    (h2 : get_rewards env b.input_ids.length b.input_ids b₁ true = Except.ok (rtr, rwr, b₂))
    (h3 : env.stepFn ⟨b.input_ids, rt, rtr, rw, rwr⟩ = Except.ok stats) :
    b₂.response = some (rtr.map env.decode) ∧
    Event.logEv ⟨stats, b₂, rw⟩ ∈ (runIterationT env b).1 ∧
    b₂.query = b.query ∧ b₂.input_ids = b.input_ids := by
  obtain ⟨-, hb1, -⟩ := get_rewards_ok_spec env 0 b.input_ids b false rt rw b₁ h1
  obtain ⟨-, hb2, -⟩ := get_rewards_ok_spec env _ _ b₁ true rtr rwr b₂ h2
  refine ⟨by rw [hb2], ?_, by rw [hb2, hb1], by rw [hb2, hb1]⟩
  rw [runIterationT_ok env b rt rw b₁ rtr rwr b₂ stats h1 h2 h3]
  simp

/-- C10 witness: the theorem applied to `envEx` and `batchEx`. -/
theorem claim_C10_response_overwrite_wit :
    (⟨[[1, 2]], ["q"], some ["x"]⟩ : Batch).response =
      some (([[0, 0, 0, 0, 0]] : List (List Token)).map envEx.decode) ∧
    Event.logEv ⟨[], ⟨[[1, 2]], ["q"], some ["x"]⟩, [(1 : ℚ)]⟩ ∈
      (runIterationT envEx batchEx).1 ∧
    (⟨[[1, 2]], ["q"], some ["x"]⟩ : Batch).query = batchEx.query ∧
    (⟨[[1, 2]], ["q"], some ["x"]⟩ : Batch).input_ids = batchEx.input_ids :=
  claim_C10_response_overwrite envEx batchEx [[0, 0, 0, 0, 0]] [(1 : ℚ)]
    ⟨[[1, 2]], ["q"], some ["x"]⟩ [[0, 0, 0, 0, 0]] [(1 : ℚ)]
    ⟨[[1, 2]], ["q"], some ["x"]⟩ [] rfl rfl rfl

end RelativisticPPO
